import Mathlib

/-!
Shallow embedding of the Instant-DNA genomic ingestion pipeline
(src/raw_converter.rs and src/vcf_processor.rs) together with theorems
settling the specification claims about it. Strings are modelled through
their underlying character lists so that every operation computes by
kernel reduction; the Rust f64 similarity arithmetic is modelled over the
rationals, where the ratios the claims talk about (n/n, and the 0
convention) take exactly the same values as under IEEE double division.
-/

/-! ## String primitives mirroring the Rust standard library -/

/-- Rust str::split on a single character: splits at every occurrence,
keeping empty fields, and yields one empty field on the empty string. -/
def splitOnChar (c : Char) : List Char → List (List Char)
  | [] => [[]]
  | x :: xs =>
    if x = c then [] :: splitOnChar c xs
    else
      match splitOnChar c xs with
      | [] => [[x]]
      | f :: fs => (x :: f) :: fs

/-- line.split('\t') collected to strings. -/
def splitTab (s : String) : List String :=
  (splitOnChar '\t' s.data).map (fun l => ⟨l⟩)

/-- line.split(',') collected to strings. -/
def splitComma (s : String) : List String :=
  (splitOnChar ',' s.data).map (fun l => ⟨l⟩)

/-- Rust str::starts_with for a string pattern. -/
def strStartsWith (s pat : String) : Bool := pat.data.isPrefixOf s.data

/-- Rust str::contains for a string pattern: substring containment. -/
def strContainsStr (s pat : String) : Bool := decide (pat.data <:+: s.data)

/-- Rust str::contains for a char pattern. -/
def strContainsChar (s : String) (c : Char) : Bool := s.data.contains c

/-- Rust line.matches(c).count(): number of occurrences of the char. -/
def countChar (s : String) (c : Char) : Nat :=
  (s.data.filter (fun d => d = c)).length

/-- Rust str::to_lowercase, faithful on the ASCII content that the
pipeline handles. -/
def lowerStr (s : String) : String := ⟨s.data.map Char.toLower⟩

/-- Rust str::trim on a character list. -/
def trimCharList (l : List Char) : List Char :=
  ((l.dropWhile Char.isWhitespace).reverse.dropWhile Char.isWhitespace).reverse

/-- Rust str::trim. -/
def trimStr (s : String) : String := ⟨trimCharList s.data⟩

/-- Rust str::trim_matches('"'): strips every leading and trailing
double-quote character. -/
def trimQuotes (s : String) : String :=
  ⟨((s.data.dropWhile (fun c => c = '"')).reverse.dropWhile
      (fun c => c = '"')).reverse⟩

/-- Base-10 value of a digit list. -/
def digitsVal (l : List Char) : Nat :=
  l.foldl (fun a c => a * 10 + (c.toNat - 48)) 0

/-- Digits-only body of Rust unsigned FromStr: one or more ASCII digits. -/
def parseDigits? (l : List Char) : Option Nat :=
  if l ≠ [] ∧ l.all Char.isDigit then some (digitsVal l) else none

/-- Rust unsigned FromStr shape: an optional leading plus sign followed
by one or more ASCII digits; anything else is an error. -/
def rustParseNat? (s : String) : Option Nat :=
  match s.data with
  | '+' :: rest => parseDigits? rest
  | l => parseDigits? l

/-- Rust str::parse::<u32>(): overflow is an error. -/
def rustParseU32 (s : String) : Option Nat :=
  (rustParseNat? s).bind (fun n => if n < 2 ^ 32 then some n else none)

/-- Rust str::parse::<u64>(): overflow is an error. -/
def rustParseU64 (s : String) : Option Nat :=
  (rustParseNat? s).bind (fun n => if n < 2 ^ 64 then some n else none)

/-- Lexicographic strict comparison on character values: the Rust String
Ord instance restricted to the ASCII content handled here. -/
def charListLt : List Char → List Char → Bool
  | [], [] => false
  | [], _ :: _ => true
  | _ :: _, [] => false
  | a :: as, b :: bs =>
    if a.toNat < b.toNat then true
    else if b.toNat < a.toNat then false
    else charListLt as bs

/-- Non-strict lexicographic comparison. -/
def charListLe (a b : List Char) : Bool := charListLt a b || a == b

/-! ## Data model (struct SnpData, enum InputFormat) -/

/-- SNP record produced by the raw-data vendor parsers
(struct SnpData in src/raw_converter.rs). -/
structure SnpData where
  rsid : String
  chromosome : String
  position : Nat
  genotype : String
  reference : Option String
  alternate : Option String
deriving DecidableEq

/-- Vendor input formats (enum InputFormat in src/raw_converter.rs). -/
inductive InputFormat where
  | TwentyThreeAndMe
  | AncestryDna
  | MyHeritage
  | FamilyTreeDna
  | Csv
  | Tab
  | Plink
  | Auto
deriving DecidableEq

/-! ## ChromosomeNormalizer (RawDnaConverter::normalize_chromosome) -/

/-- Maximal leading run of consecutive digits. -/
def takeDigits : List Char → List Char
  | [] => []
  | c :: cs => if c.isDigit then c :: takeDigits cs else []

/-- First maximal run of consecutive digits in the character list: the
capture of the Rust regex (\d+) used by normalize_chromosome. -/
def firstDigitRun : List Char → Option (List Char)
  | [] => none
  | c :: cs => if c.isDigit then some (c :: takeDigits cs) else firstDigitRun cs

/-- RawDnaConverter::normalize_chromosome. -/
def normalize_chromosome (chrStr : String) : String :=
  let t := trimStr chrStr
  let low := lowerStr t
  if low = "x" ∨ low = "chrx" ∨ low = "23" then "X"
  else if low = "y" ∨ low = "chry" ∨ low = "24" then "Y"
  else if low = "m" ∨ low = "mt" ∨ low = "chrm" ∨ low = "chrmt" ∨ low = "25" then "MT"
  else
    match firstDigitRun t.data with
    | some run =>
        let chrNum := (rustParseU32 ⟨run⟩).getD 0
        if 1 ≤ chrNum ∧ chrNum ≤ 22 then toString chrNum else "0"
    | none => "0"

/-- ChromosomeNormalizer as the amended claim words it: after trimming,
case-insensitive special tokens; otherwise the first maximal run of digit
characters is parsed as a u32 (0 on overflow) and mapped to its decimal
string when in [1,22], with "0" in every other case. -/
def normalizeChromosomeAmended (tok : String) : String :=
  let t := trimStr tok
  let low := lowerStr t
  if low = "x" ∨ low = "chrx" ∨ low = "23" then "X"
  else if low = "y" ∨ low = "chry" ∨ low = "24" then "Y"
  else if low = "m" ∨ low = "mt" ∨ low = "chrm" ∨ low = "chrmt" ∨ low = "25" then "MT"
  else
    let run := (t.data.dropWhile (fun c => !c.isDigit)).takeWhile Char.isDigit
    if run.isEmpty then "0"
    else
      let chrNum := (rustParseU32 ⟨run⟩).getD 0
      if 1 ≤ chrNum ∧ chrNum ≤ 22 then toString chrNum else "0"

/-- ChromosomeNormalizer exactly as the original claim words it: strip
ALL non-digit characters and parse what remains as one integer. -/
def normalizeChromosomeClaimed (tok : String) : String :=
  let low := lowerStr tok
  if low = "x" ∨ low = "chrx" ∨ low = "23" then "X"
  else if low = "y" ∨ low = "chry" ∨ low = "24" then "Y"
  else if low = "m" ∨ low = "mt" ∨ low = "chrm" ∨ low = "chrmt" ∨ low = "25" then "MT"
  else
    let ds := tok.data.filter Char.isDigit
    if ds.isEmpty then "0"
    else if 1 ≤ digitsVal ds ∧ digitsVal ds ≤ 22 then toString (digitsVal ds)
    else "0"

/-! ## FormatDetector (RawDnaConverter::auto_detect_format) -/

/-- Header classification of RawDnaConverter::auto_detect_format,
applied to the first retained line of the input. -/
def detectFromHeader (firstLine : String) : InputFormat :=
  let headerLower := lowerStr firstLine
  if strContainsStr headerLower "rsid" && strContainsStr headerLower "chromosome"
      && strContainsStr headerLower "position"
      && strContainsStr headerLower "genotype" then
    InputFormat.TwentyThreeAndMe
  else if strContainsStr headerLower "rsid" && strContainsStr headerLower "chrom"
      && strContainsStr headerLower "pos"
      && strContainsStr headerLower "allele1" then
    InputFormat.AncestryDna
  else if strContainsStr headerLower "rsid" && strContainsStr headerLower "chr"
      && strContainsStr headerLower "pos"
      && (strContainsStr headerLower "result"
          || strContainsStr headerLower "genotype") then
    InputFormat.MyHeritage
  else if strContainsStr headerLower "rsid" && strContainsStr headerLower "chromosome"
      && strContainsStr headerLower "position"
      && strContainsStr headerLower "result" then
    InputFormat.FamilyTreeDna
  else
    let tabCount := countChar firstLine '\t'
    let commaCount := countChar firstLine ','
    if commaCount > tabCount ∧ commaCount > 2 then InputFormat.Csv
    else if tabCount > 2 then InputFormat.Tab
    else InputFormat.Csv

/-- RawDnaConverter::auto_detect_format over the list of input lines:
up to ten lines are read, blank and comment lines are discarded, and the
first remaining line is classified; an empty remainder yields Auto. -/
def auto_detect_format (lines : List String) : InputFormat :=
  let retained := (lines.take 10).filter
    (fun line => !(trimStr line).data.isEmpty && !strStartsWith line "#")
  match retained with
  | [] => InputFormat.Auto
  | firstLine :: _ => detectFromHeader firstLine

/-! ## VendorParsers (RawDnaConverter::parse_23andme and friends) -/

/-- Comment-and-blank skipping loop that every vendor parser runs before
the header: returns the header line (empty if none is found) and the
remaining lines. -/
def skipToHeader : List String → String × List String
  | [] => ("", [])
  | l :: ls =>
    if strStartsWith l "#" = true ∨ trimStr l = "" then skipToHeader ls
    else (l, ls)

/-- Data-line step of RawDnaConverter::parse_23andme for resolved column
indices; none means the line produces no record. -/
def parse23andmeLine (rsidIdx chrIdx posIdx genotypeIdx : Nat)
    (line : String) : Option SnpData :=
  if strStartsWith line "#" = true ∨ trimStr line = "" then none
  else
    let fields := splitTab line
    if fields.length < 4 then none
    else
      let chromosome := normalize_chromosome (fields.getD chrIdx "0")
      if chromosome = "0" then none
      else
        let genotype := fields.getD genotypeIdx "--"
        if genotype = "--" ∨ genotype = "0" then none
        else some {
          rsid := fields.getD rsidIdx ""
          chromosome := chromosome
          position := (rustParseU64 (fields.getD posIdx "0")).getD 0
          genotype := genotype
          reference := none
          alternate := none }

/-- RawDnaConverter::parse_23andme: exact lowercased header names with
positional defaults 0,1,2,3. -/
def parse_23andme (lines : List String) : List SnpData :=
  let hr := skipToHeader lines
  let headers := splitTab hr.1
  let rsidIdx := (headers.findIdx? (fun h => lowerStr h == "rsid")).getD 0
  let chrIdx := (headers.findIdx? (fun h => lowerStr h == "chromosome")).getD 1
  let posIdx := (headers.findIdx? (fun h => lowerStr h == "position")).getD 2
  let genotypeIdx := (headers.findIdx? (fun h => lowerStr h == "genotype")).getD 3
  hr.2.filterMap (parse23andmeLine rsidIdx chrIdx posIdx genotypeIdx)

/-- RawDnaConverter::parse_familytree_dna delegates to parse_23andme. -/
def parse_familytree_dna (lines : List String) : List SnpData :=
  parse_23andme lines

/-- Data-line step of RawDnaConverter::parse_ancestry_dna (the
two-allele vendor). -/
def parseAncestryLine (rsidIdx chrIdx posIdx allele1Idx allele2Idx : Nat)
    (line : String) : Option SnpData :=
  if strStartsWith line "#" = true ∨ trimStr line = "" then none
  else
    let fields := splitTab line
    if fields.length < 5 then none
    else
      let chromosome := normalize_chromosome (fields.getD chrIdx "0")
      if chromosome = "0" then none
      else
        let allele1 := fields.getD allele1Idx "0"
        let allele2 := fields.getD allele2Idx "0"
        if allele1 = "0" ∨ allele2 = "0" then none
        else some {
          rsid := fields.getD rsidIdx ""
          chromosome := chromosome
          position := (rustParseU64 (fields.getD posIdx "0")).getD 0
          genotype := allele1 ++ allele2
          reference := none
          alternate := none }

/-- RawDnaConverter::parse_ancestry_dna: substring header matches with
positional defaults 0,1,2,3,4. -/
def parse_ancestry_dna (lines : List String) : List SnpData :=
  let hr := skipToHeader lines
  let headers := splitTab hr.1
  hr.2.filterMap (parseAncestryLine
    ((headers.findIdx? (fun h => strContainsStr (lowerStr h) "rsid")).getD 0)
    ((headers.findIdx? (fun h => strContainsStr (lowerStr h) "chrom")).getD 1)
    ((headers.findIdx? (fun h => strContainsStr (lowerStr h) "pos")).getD 2)
    ((headers.findIdx? (fun h => strContainsStr (lowerStr h) "allele1")).getD 3)
    ((headers.findIdx? (fun h => strContainsStr (lowerStr h) "allele2")).getD 4))

/-- MyHeritage delimiter choice, made independently for every line:
comma when the line holds a comma, otherwise tab. -/
def myheritageSplit (s : String) : List String :=
  if strContainsChar s ',' then splitComma s else splitTab s

/-- Data-line step of RawDnaConverter::parse_myheritage. -/
def parseMyheritageLine (rsidIdx chrIdx posIdx resultIdx : Nat)
    (line : String) : Option SnpData :=
  if strStartsWith line "#" = true ∨ trimStr line = "" then none
  else
    let fields := myheritageSplit line
    if fields.length < 4 then none
    else
      let chromosome := normalize_chromosome (fields.getD chrIdx "0")
      if chromosome = "0" then none
      else
        let genotype := trimQuotes (fields.getD resultIdx "--")
        if genotype = "--" ∨ genotype = "" then none
        else some {
          rsid := trimQuotes (fields.getD rsidIdx "")
          chromosome := chromosome
          position := (rustParseU64 (fields.getD posIdx "0")).getD 0
          genotype := genotype
          reference := none
          alternate := none }

/-- RawDnaConverter::parse_myheritage: substring header matches with
positional defaults 0,1,2,3. -/
def parse_myheritage (lines : List String) : List SnpData :=
  let hr := skipToHeader lines
  let headers := myheritageSplit hr.1
  hr.2.filterMap (parseMyheritageLine
    ((headers.findIdx? (fun h => strContainsStr (lowerStr h) "rsid")).getD 0)
    ((headers.findIdx? (fun h => strContainsStr (lowerStr h) "chr")).getD 1)
    ((headers.findIdx? (fun h => strContainsStr (lowerStr h) "pos")).getD 2)
    ((headers.findIdx? (fun h => strContainsStr (lowerStr h) "result"
        || strContainsStr (lowerStr h) "genotype")).getD 3))

/-- Generic CSV/Tab column resolver for the RSID field. -/
def genericRsidIdx? (headers : List String) : Option Nat :=
  headers.findIdx? (fun h => strContainsStr (lowerStr h) "rsid"
    || strContainsStr (lowerStr h) "snp"
    || strContainsStr (lowerStr h) "marker")

/-- Generic CSV/Tab column resolver for the chromosome field. -/
def genericChrIdx? (headers : List String) : Option Nat :=
  headers.findIdx? (fun h => strContainsStr (lowerStr h) "chr"
    || strContainsStr (lowerStr h) "chrom")

/-- Generic CSV/Tab column resolver for the position field. -/
def genericPosIdx? (headers : List String) : Option Nat :=
  headers.findIdx? (fun h => strContainsStr (lowerStr h) "pos"
    || strContainsStr (lowerStr h) "location")

/-- Generic CSV/Tab column resolver for the genotype field. -/
def genericGenotypeIdx? (headers : List String) : Option Nat :=
  headers.findIdx? (fun h => strContainsStr (lowerStr h) "genotype"
    || strContainsStr (lowerStr h) "result"
    || strContainsStr (lowerStr h) "call")

/-- Data-line step of RawDnaConverter::parse_csv; the source has no
field-count guard here. -/
def parseCsvLine (rsidIdx chrIdx posIdx genotypeIdx : Nat)
    (line : String) : Option SnpData :=
  if strStartsWith line "#" = true ∨ trimStr line = "" then none
  else
    let fields := splitComma line
    let chromosome := normalize_chromosome (fields.getD chrIdx "0")
    if chromosome = "0" then none
    else
      let genotype := trimQuotes (fields.getD genotypeIdx "--")
      if genotype = "--" ∨ genotype = "" then none
      else some {
        rsid := trimQuotes (fields.getD rsidIdx "")
        chromosome := chromosome
        position := (rustParseU64 (fields.getD posIdx "0")).getD 0
        genotype := genotype
        reference := none
        alternate := none }

/-- RawDnaConverter::parse_csv: returns the empty list when any of the
four logical columns cannot be resolved from the header. -/
def parse_csv (lines : List String) : List SnpData :=
  let hr := skipToHeader lines
  let headers := splitComma hr.1
  match genericRsidIdx? headers, genericChrIdx? headers,
      genericPosIdx? headers, genericGenotypeIdx? headers with
  | some r, some c, some p, some g => hr.2.filterMap (parseCsvLine r c p g)
  | _, _, _, _ => []

/-- Data-line step of RawDnaConverter::parse_tab. -/
def parseTabLine (rsidIdx chrIdx posIdx genotypeIdx : Nat)
    (line : String) : Option SnpData :=
  if strStartsWith line "#" = true ∨ trimStr line = "" then none
  else
    let fields := splitTab line
    if fields.length ≤ genotypeIdx then none
    else
      let chromosome := normalize_chromosome (fields.getD chrIdx "0")
      if chromosome = "0" then none
      else
        let genotype := fields.getD genotypeIdx "--"
        if genotype = "--" ∨ genotype = "" then none
        else some {
          rsid := fields.getD rsidIdx ""
          chromosome := chromosome
          position := (rustParseU64 (fields.getD posIdx "0")).getD 0
          genotype := genotype
          reference := none
          alternate := none }

/-- RawDnaConverter::parse_tab: unresolved columns fall back to the
positional defaults 0,1,2,3 instead of aborting. -/
def parse_tab (lines : List String) : List SnpData :=
  let hr := skipToHeader lines
  let headers := splitTab hr.1
  hr.2.filterMap (parseTabLine
    ((genericRsidIdx? headers).getD 0)
    ((genericChrIdx? headers).getD 1)
    ((genericPosIdx? headers).getD 2)
    ((genericGenotypeIdx? headers).getD 3))

/-! ## VcfParser (VCFProcessor::parse_vcf) -/

/-- Variant record loaded from one VCF data line
(struct SNPVariant in src/vcf_processor.rs). The source parses the QUAL
field to f64 with a 0.0 fallback; that conversion can never fail and no
claim reads the number, so the raw QUAL text is carried here. -/
structure SNPVariant where
  chromosome : String
  position : Nat
  id : String
  reference : String
  alternative : String
  qualityRaw : String
  samples : List String
deriving DecidableEq

/-- VCFProcessor::parse_variant_line: fewer than 9 tab fields or an
unparseable POS field is an error; genotype strings are the fields from
column index 9 on. -/
def parse_variant_line (line : String) : Except String SNPVariant :=
  let fields := splitTab line
  if fields.length < 9 then Except.error "Invalid VCF line format"
  else
    match rustParseU64 (fields.getD 1 "") with
    | none => Except.error "invalid digit found in string"
    | some pos => Except.ok {
        chromosome := fields.getD 0 ""
        position := pos
        id := fields.getD 2 ""
        reference := fields.getD 3 ""
        alternative := fields.getD 4 ""
        qualityRaw := fields.getD 5 ""
        samples := fields.drop 9 }

/-- In-memory VCF parse state: loaded samples, loaded variants and the
header flag of VCFProcessor::parse_vcf. -/
structure VcfState where
  samples : List String
  variants : List SNPVariant
  headerParsed : Bool
deriving DecidableEq

/-- VCFProcessor::parse_header: sample names are the header fields from
column index 9 on, taken only when more than 9 fields are present. -/
def parse_header_samples (line : String) : List String :=
  let fields := splitTab line
  if fields.length > 9 then fields.drop 9 else []

/-- One loop iteration of VCFProcessor::parse_vcf: meta lines are
skipped, the first header line records the samples, and a data line is
parsed only when the header was seen, a failing line parse being
silently discarded by the if-let in the source. -/
def parseVcfStep (st : VcfState) (line : String) : VcfState :=
  if strStartsWith line "##" = true then st
  else if strStartsWith line "#CHROM" = true ∧ st.headerParsed = false then
    { st with samples := st.samples ++ parse_header_samples line
              headerParsed := true }
  else if strStartsWith line "#" = false ∧ st.headerParsed = true then
    match parse_variant_line line with
    | Except.ok v => { st with variants := st.variants ++ [v] }
    | Except.error _ => st
  else st

/-- VCFProcessor::parse_vcf over the decompressed input lines. In the
source only the line reader and the file open can fail inside the loop;
every per-line parse error is swallowed, so the model always returns ok. -/
def parse_vcf (lines : List String) : Except String VcfState :=
  Except.ok (lines.foldl parseVcfStep
    { samples := [], variants := [], headerParsed := false })

/-! ## PopulationPanelLoader (VCFProcessor::parse_population_panel) -/

/-- Population record (struct Population in src/vcf_processor.rs). -/
structure Population where
  name : String
  samples : List String
  ancestry : String
  region : String
deriving DecidableEq

/-- VCFProcessor::get_population_name: fixed code-to-name table, unknown
codes pass through verbatim. -/
def get_population_name (popCode : String) : String :=
  if popCode = "CHB" then "Han Chinese in Beijing"
  else if popCode = "JPT" then "Japanese in Tokyo"
  else if popCode = "CHS" then "Southern Han Chinese"
  else if popCode = "CDX" then "Chinese Dai in Xishuangbanna"
  else if popCode = "KHV" then "Kinh in Ho Chi Minh City"
  else if popCode = "CEU" then "Utah residents with European ancestry"
  else if popCode = "TSI" then "Toscani in Italia"
  else if popCode = "FIN" then "Finnish in Finland"
  else if popCode = "GBR" then "British in England and Scotland"
  else if popCode = "IBS" then "Iberian populations in Spain"
  else if popCode = "YRI" then "Yoruba in Ibadan, Nigeria"
  else if popCode = "LWK" then "Luhya in Webuye, Kenya"
  else if popCode = "GWD" then "Gambian in Western Division"
  else if popCode = "MSL" then "Mende in Sierra Leone"
  else if popCode = "ESN" then "Esan in Nigeria"
  else if popCode = "ASW" then "African Ancestry in Southwest US"
  else if popCode = "ACB" then "African Caribbean in Barbados"
  else if popCode = "MXL" then "Mexican Ancestry in Los Angeles"
  else if popCode = "PUR" then "Puerto Rican in Puerto Rico"
  else if popCode = "CLM" then "Colombian in Medellin"
  else if popCode = "PEL" then "Peruvian in Lima"
  else popCode

/-- VCFProcessor::get_population_region: fixed superpopulation-to-region
table with an Unknown fallback. -/
def get_population_region (superPop : String) : String :=
  if superPop = "EAS" then "East Asia"
  else if superPop = "EUR" then "Europe"
  else if superPop = "AFR" then "Africa"
  else if superPop = "AMR" then "Americas"
  else if superPop = "SAS" then "South Asia"
  else "Unknown"

/-- Value update at a key of the association list standing for the
populations HashMap; keys are unique by construction, so mapping every
matching entry coincides with the HashMap update. -/
def updateAssoc : List (String × Population) → String →
    (Population → Population) → List (String × Population)
  | [], _, _ => []
  | (k, v) :: ps, key, f =>
    if k = key then (k, f v) :: updateAssoc ps key f
    else (k, v) :: updateAssoc ps key f

/-- One loop iteration of VCFProcessor::parse_population_panel: a line
starting with the text sample is skipped as header; a line with at least
4 tab fields creates the population on first sight of its code and
appends the sample name to its member list. The association list keeps
first-creation order; the claims only read per-key content, which does
not depend on the HashMap iteration order. -/
def panelStep (pops : List (String × Population)) (line : String) :
    List (String × Population) :=
  if strStartsWith line "sample" = true then pops
  else
    let parts := splitTab line
    if 4 ≤ parts.length then
      let sample := parts.getD 0 ""
      let popCode := parts.getD 1 ""
      let superPop := parts.getD 2 ""
      let pops1 := if (pops.lookup popCode).isSome then pops
        else pops ++ [(popCode,
          { name := get_population_name popCode
            samples := []
            ancestry := superPop
            region := get_population_region superPop })]
      updateAssoc pops1 popCode
        (fun p => { p with samples := p.samples ++ [sample] })
    else pops

/-- VCFProcessor::parse_population_panel over the panel file lines. -/
def parse_population_panel (lines : List String) : List (String × Population) :=
  lines.foldl panelStep []

/-- Member list recorded for one population code. -/
def membersOf (pops : List (String × Population)) (code : String) : List String :=
  match pops.lookup code with
  | some p => p.samples
  | none => []

/-! ## AncestryEstimator (VCFProcessor::calculate_genetic_similarity and
VCFProcessor::estimate_ancestry) -/

/-- Loaded dataset held by struct VCFProcessor in src/vcf_processor.rs:
variants, the sample order from the VCF header, and the populations map
(modelled as an association list in creation order; every claim reads
only order-independent views of it). -/
structure VCFProcessor where
  variants : List SNPVariant
  samples : List String
  populations : List (String × Population)
deriving DecidableEq

/-- Match-and-total counting loop of calculate_genetic_similarity: a
variant is compared only when both sample indices lie inside its
genotype list. -/
def similarityCounts (variants : List SNPVariant) (i j : Nat) : Nat × Nat :=
  variants.foldl (fun mt v =>
    if i < v.samples.length ∧ j < v.samples.length then
      ((if v.samples.getD i "" = v.samples.getD j "" then mt.1 + 1 else mt.1),
        mt.2 + 1)
    else mt) (0, 0)

/-- VCFProcessor::calculate_genetic_similarity, with the f64 ratio
modelled over the rationals: the source computes matches/total in
doubles, and on every value a claim inspects (n/n and the 0 fallback)
the two agree exactly. -/
def calculate_genetic_similarity (ds : VCFProcessor) (sample1 sample2 : String) :
    Except String ℚ :=
  match ds.samples.findIdx? (fun s => s == sample1),
      ds.samples.findIdx? (fun s => s == sample2) with
  | none, _ => Except.error "Sample 1 not found"
  | some _, none => Except.error "Sample 2 not found"
  | some i, some j =>
      let mt := similarityCounts ds.variants i j
      if 0 < mt.2 then Except.ok ((mt.1 : ℚ) / (mt.2 : ℚ)) else Except.ok 0

/-- Similarity value for two resolved sample indices; the value branch
of calculate_genetic_similarity. -/
def simValue (ds : VCFProcessor) (i j : Nat) : ℚ :=
  let mt := similarityCounts ds.variants i j
  if 0 < mt.2 then (mt.1 : ℚ) / (mt.2 : ℚ) else 0

/-- Similarity list gathered by estimate_ancestry for one
superpopulation: over every population with that ancestry, the first 10
members, keeping exactly the comparisons that succeed (the if-let Ok in
the source). -/
def ancestrySims (ds : VCFProcessor) (sample superPop : String) : List ℚ :=
  (ds.populations.filter (fun kp => kp.2.ancestry == superPop)).flatMap
    (fun kp => (kp.2.samples.take 10).filterMap
      (fun popSample => (calculate_genetic_similarity ds sample popSample).toOption))

/-- VCFProcessor::estimate_ancestry projected at one superpopulation
code: the mean of the collected similarities, or no entry when no pair
was compared. Rational sums are iteration-order independent, so the
HashMap orders of the source are immaterial here. -/
def estimate_ancestry_score (ds : VCFProcessor) (sample superPop : String) :
    Option ℚ :=
  let sims := ancestrySims ds sample superPop
  if 0 < sims.length then some (sims.sum / (sims.length : ℚ)) else none

/-- Similarity list under the original claim wording: every listed
member of the first ten enters, an absent one with value 0. -/
def ancestrySimsClaimed (ds : VCFProcessor) (sample superPop : String) :
    List ℚ :=
  (ds.populations.filter (fun kp => kp.2.ancestry == superPop)).flatMap
    (fun kp => (kp.2.samples.take 10).map
      (fun popSample =>
        ((calculate_genetic_similarity ds sample popSample).toOption).getD 0))

/-- AncestryEstimator member handling exactly as the original claim
words it: a member absent from the sample sequence would still
contribute a similarity of 0 to both the numerator and the denominator
of the superpopulation average. -/
def ancestryScoreClaimed (ds : VCFProcessor) (sample superPop : String) :
    Option ℚ :=
  let sims := ancestrySimsClaimed ds sample superPop
  if 0 < sims.length then some (sims.sum / (sims.length : ℚ)) else none

/-- Concrete dataset for the ancestry claims: samples S and A, one
variant on which they agree, and one EUR population listing the present
member A and the absent member B. -/
def demoAncestryDs : VCFProcessor :=
  VCFProcessor.mk
    [SNPVariant.mk "1" 100 "." "A" "G" "60" ["0|0", "0|0"]]
    ["S", "A"]
    [("GBR", Population.mk "British in England and Scotland"
        ["A", "B"] "EUR" "Europe")]

/-- Concrete dataset for the self-similarity claims: one sample and one
variant carrying one genotype column. -/
def demoCoveredDs : VCFProcessor :=
  VCFProcessor.mk [SNPVariant.mk "1" 100 "." "A" "G" "60" ["0|0"]] ["A"] []

/-- Concrete dataset for the C7 counterexample: one sample, one variant
whose genotype list is empty. -/
def demoUncoveredDs : VCFProcessor :=
  VCFProcessor.mk [SNPVariant.mk "1" 100 "." "A" "G" "60" []] ["A"] []

/-! ## VcfWriter (RawDnaConverter::write_vcf_file) -/

/-- Chromosome-key comparator of write_vcf_file (non-strict form of the
source's sort_by closure): numeric comparison when both keys parse as
u32, Rust String ordering (lexicographic on character values) otherwise. -/
def chromKeyLe (a b : String) : Bool :=
  match rustParseU32 a, rustParseU32 b with
  | some x, some y => decide (x ≤ y)
  | _, _ => charListLe a.data b.data

/-- Position comparator of the per-chromosome sort_by_key. -/
def posLe (a b : SnpData) : Bool := decide (a.position ≤ b.position)

/-- Stable insertion: the new element goes after every element already
placed that compares at or below it. -/
def insEl (le : α → α → Bool) (x : α) : List α → List α
  | [] => [x]
  | y :: ys => if le y x then y :: insEl le x ys else x :: y :: ys

/-- Stable sort modelling Vec::sort_by of the source: on a comparator
that is a total preorder on the elements at hand (true for the canonical
chromosome keys and for positions), every stable sort produces the same
list, so insertion order coincides with the source's merge sort. -/
def sortBy (le : α → α → Bool) (l : List α) : List α :=
  l.foldl (fun acc x => insEl le x acc) []

/-- First-appearance list of chromosome keys: the key set of the
grouping HashMap of write_vcf_file (whose iteration order is immaterial,
because the keys are sorted before use). -/
def keysOf (snps : List SnpData) : List String :=
  snps.foldl
    (fun ks s => if s.chromosome ∈ ks then ks else ks ++ [s.chromosome]) []

/-- Emission order of the data records written by write_vcf_file:
chromosome keys sorted with the source comparator, then within each
chromosome block the records sorted by position; one data line is
written per record. -/
def writeVcfEmission (snps : List SnpData) : List SnpData :=
  (sortBy chromKeyLe (keysOf snps)).flatMap
    (fun k => sortBy posLe (snps.filter (fun s => s.chromosome == k)))

/-- Canonical chromosome tokens of the pipeline. -/
def canonicalChromosomes : List String :=
  ["1", "2", "3", "4", "5", "6", "7", "8", "9", "10", "11", "12", "13",
    "14", "15", "16", "17", "18", "19", "20", "21", "22", "X", "Y", "MT"]

/-- Purely numeric reading of a chromosome key, as the claim words it. -/
def pureNumericVal? (s : String) : Option Nat :=
  if s.data ≠ [] ∧ s.data.all Char.isDigit then some (digitsVal s.data)
  else none

/-- Strict chromosome-key order demanded by the claim: purely numeric
keys ascending numerically, every numeric key before every non-numeric
key, non-numeric keys lexicographically among themselves. -/
def claimChromLt (a b : String) : Bool :=
  match pureNumericVal? a, pureNumericVal? b with
  | some x, some y => decide (x < y)
  | some _, none => true
  | none, some _ => false
  | none, none => charListLt a.data b.data

/-- Emission order demanded by the claim: a strictly later chromosome
block, or the same chromosome with non-decreasing position. -/
def emitLe (a b : SnpData) : Prop :=
  claimChromLt a.chromosome b.chromosome = true ∨
    (a.chromosome = b.chromosome ∧ a.position ≤ b.position)

/-- Concrete records for the ordering claim: chromosome 2 before
chromosome 1 in the input, positions out of order within chromosome 1. -/
def demoWriterSnps : List SnpData :=
  [SnpData.mk "rs1" "2" 200 "AG" none none,
    SnpData.mk "rs2" "1" 100 "AG" none none,
    SnpData.mk "rs3" "1" 50 "AG" none none]

/-! ## Theorems settling the claims -/

theorem takeDigits_eq_takeWhile (l : List Char) :
    takeDigits l = l.takeWhile Char.isDigit := by
  induction l with
  | nil => rfl
  | cons c cs ih =>
      by_cases h : c.isDigit = true
      · simp [takeDigits, List.takeWhile_cons, h, ih]
      · simp [takeDigits, List.takeWhile_cons, h]

theorem firstDigitRun_eq_dropWhile_takeWhile (l : List Char) :
    firstDigitRun l =
      (if ((l.dropWhile (fun c => !c.isDigit)).takeWhile Char.isDigit).isEmpty
       then none
       else some ((l.dropWhile (fun c => !c.isDigit)).takeWhile Char.isDigit)) := by
  induction l with
  | nil => rfl
  | cons c cs ih =>
      by_cases h : c.isDigit = true
      · simp [firstDigitRun, h, List.dropWhile_cons, List.takeWhile_cons,
          takeDigits_eq_takeWhile]
      · simp [firstDigitRun, h, List.dropWhile_cons, ih]

/-- C6: the claim as frozen fails on the code; the amended claim holds:
normalize(token) is total and case-insensitive, maps the special tokens
as stated, but on every other token it takes the FIRST maximal run of
digit characters (the Rust regex capture), not the concatenation of all
digits, parses it as u32 with overflow collapsing to 0, and returns its
decimal string when in [1,22], else "0". -/
theorem c6_normalize_first_digit_run (tok : String) :
    normalize_chromosome tok = normalizeChromosomeAmended tok := by
  unfold normalize_chromosome normalizeChromosomeAmended
  simp only [firstDigitRun_eq_dropWhile_takeWhile]
  by_cases h : ((trimStr tok).data.dropWhile (fun c => !c.isDigit)).takeWhile
      Char.isDigit |>.isEmpty
  · simp [h]
  · simp [h]

/-- C6 counterexample: on the token consisting of a digit, a letter and a
digit, the code keeps only the first digit run and returns its string,
while the claim as written (strip all non-digit characters, parse all
remaining digits as one integer) would return the two-digit string. -/
theorem c6_normalize_counterexample :
    normalize_chromosome "1a2" = "1" ∧
    normalizeChromosomeClaimed "1a2" = "12" ∧
    ("1" : String) ≠ "12" := by
  refine ⟨by decide, by decide, by decide⟩

/-- Substring containment is transitive along an infix relation. -/
theorem strContainsStr_of_infix {s p q : String} (hpq : p.data <:+: q.data)
    (h : strContainsStr s q = true) : strContainsStr s p = true := by
  unfold strContainsStr at h ⊢
  exact decide_eq_true_iff.mpr (hpq.trans (decide_eq_true_iff.mp h))

/-- C10: format auto-detection never returns the FamilyTreeDNA format:
whenever the vendor-D header condition holds, the vendor-C condition
holds as well (chromosome contains chr, position contains pos) and is
tested first, so the vendor-D branch is unreachable on every input. -/
theorem c10_auto_detect_never_familytree (lines : List String) :
    auto_detect_format lines ≠ InputFormat.FamilyTreeDna := by
  unfold auto_detect_format
  cases hr : (lines.take 10).filter
      (fun line => !(trimStr line).data.isEmpty && !strStartsWith line "#") with
  | nil => simp
  | cons firstLine rest =>
      simp only []
      unfold detectFromHeader
      by_cases c1 : (strContainsStr (lowerStr firstLine) "rsid"
          && strContainsStr (lowerStr firstLine) "chromosome"
          && strContainsStr (lowerStr firstLine) "position"
          && strContainsStr (lowerStr firstLine) "genotype") = true
      · simp [c1]
      · simp only [c1, if_false, Bool.false_eq_true]
        by_cases c2 : (strContainsStr (lowerStr firstLine) "rsid"
            && strContainsStr (lowerStr firstLine) "chrom"
            && strContainsStr (lowerStr firstLine) "pos"
            && strContainsStr (lowerStr firstLine) "allele1") = true
        · simp [c2]
        · simp only [c2, if_false, Bool.false_eq_true]
          by_cases c3 : (strContainsStr (lowerStr firstLine) "rsid"
              && strContainsStr (lowerStr firstLine) "chr"
              && strContainsStr (lowerStr firstLine) "pos"
              && (strContainsStr (lowerStr firstLine) "result"
                  || strContainsStr (lowerStr firstLine) "genotype")) = true
          · simp [c3]
          · simp only [c3, if_false, Bool.false_eq_true]
            by_cases c4 : (strContainsStr (lowerStr firstLine) "rsid"
                && strContainsStr (lowerStr firstLine) "chromosome"
                && strContainsStr (lowerStr firstLine) "position"
                && strContainsStr (lowerStr firstLine) "result") = true
            · exfalso
              apply c3
              have h4 := c4
              simp only [Bool.and_eq_true] at h4
              obtain ⟨⟨⟨hrsid, hchromosome⟩, hposition⟩, hresult⟩ := h4
              have hchr : strContainsStr (lowerStr firstLine) "chr" = true :=
                strContainsStr_of_infix (by decide) hchromosome
              have hpos : strContainsStr (lowerStr firstLine) "pos" = true :=
                strContainsStr_of_infix (by decide) hposition
              simp [hrsid, hchr, hpos, hresult]
            · simp only [c4, if_false, Bool.false_eq_true]
              by_cases c5 : countChar firstLine ',' > countChar firstLine '\t'
                  ∧ countChar firstLine ',' > 2
              · simp [c5]
              · simp only [c5, if_false]
                by_cases c6 : countChar firstLine '\t' > 2
                · simp [c6]
                · simp [c6]

/-- C3: the claim as frozen fails on the code; the amended claim holds.
Every parser silently drops a data line exactly on its own condition set:
all of them drop when the chromosome normalizes to "0" (and on comment,
blank or too-short lines); the 23andMe-style parser drops exactly the
genotypes "--" and "0" (an empty genotype is kept); the MyHeritage-style
and the generic CSV and Tab parsers drop exactly "--" and the empty
genotype (a "0" genotype is kept); the two-allele vendor drops exactly
when either allele is "0". -/
theorem c3_parser_drop_characterization :
    (∀ r c p g line, parse23andmeLine r c p g line = none ↔
      (strStartsWith line "#" = true ∨ trimStr line = "" ∨
        (splitTab line).length < 4 ∨
        normalize_chromosome ((splitTab line).getD c "0") = "0" ∨
        ((splitTab line).getD g "--" = "--" ∨
          (splitTab line).getD g "--" = "0"))) ∧
    (∀ r c p g line, parseMyheritageLine r c p g line = none ↔
      (strStartsWith line "#" = true ∨ trimStr line = "" ∨
        (myheritageSplit line).length < 4 ∨
        normalize_chromosome ((myheritageSplit line).getD c "0") = "0" ∨
        (trimQuotes ((myheritageSplit line).getD g "--") = "--" ∨
          trimQuotes ((myheritageSplit line).getD g "--") = ""))) ∧
    (∀ r c p g line, parseCsvLine r c p g line = none ↔
      (strStartsWith line "#" = true ∨ trimStr line = "" ∨
        normalize_chromosome ((splitComma line).getD c "0") = "0" ∨
        (trimQuotes ((splitComma line).getD g "--") = "--" ∨
          trimQuotes ((splitComma line).getD g "--") = ""))) ∧
    (∀ r c p g line, parseTabLine r c p g line = none ↔
      (strStartsWith line "#" = true ∨ trimStr line = "" ∨
        (splitTab line).length ≤ g ∨
        normalize_chromosome ((splitTab line).getD c "0") = "0" ∨
        ((splitTab line).getD g "--" = "--" ∨
          (splitTab line).getD g "--" = ""))) ∧
    (∀ r c p a1 a2 line, parseAncestryLine r c p a1 a2 line = none ↔
      (strStartsWith line "#" = true ∨ trimStr line = "" ∨
        (splitTab line).length < 5 ∨
        normalize_chromosome ((splitTab line).getD c "0") = "0" ∨
        ((splitTab line).getD a1 "0" = "0" ∨
          (splitTab line).getD a2 "0" = "0"))) := by
  refine ⟨?_, ?_, ?_, ?_, ?_⟩
  · intro r c p g line
    simp only [parse23andmeLine]
    split_ifs with h1 h2 h3 h4
    · exact iff_of_true rfl (h1.imp id Or.inl)
    · exact iff_of_true rfl (Or.inr (Or.inr (Or.inl h2)))
    · exact iff_of_true rfl (Or.inr (Or.inr (Or.inr (Or.inl h3))))
    · exact iff_of_true rfl (Or.inr (Or.inr (Or.inr (Or.inr h4))))
    · refine iff_of_false (by simp) ?_
      push_neg
      push_neg at h1 h4
      exact ⟨h1.1, h1.2, Nat.not_lt.mp h2, h3, h4.1, h4.2⟩
  · intro r c p g line
    simp only [parseMyheritageLine]
    split_ifs with h1 h2 h3 h4
    · exact iff_of_true rfl (h1.imp id Or.inl)
    · exact iff_of_true rfl (Or.inr (Or.inr (Or.inl h2)))
    · exact iff_of_true rfl (Or.inr (Or.inr (Or.inr (Or.inl h3))))
    · exact iff_of_true rfl (Or.inr (Or.inr (Or.inr (Or.inr h4))))
    · refine iff_of_false (by simp) ?_
      push_neg
      push_neg at h1 h4
      exact ⟨h1.1, h1.2, Nat.not_lt.mp h2, h3, h4.1, h4.2⟩
  · intro r c p g line
    simp only [parseCsvLine]
    split_ifs with h1 h2 h3
    · exact iff_of_true rfl (h1.imp id Or.inl)
    · exact iff_of_true rfl (Or.inr (Or.inr (Or.inl h2)))
    · exact iff_of_true rfl (Or.inr (Or.inr (Or.inr h3)))
    · refine iff_of_false (by simp) ?_
      push_neg
      push_neg at h1 h3
      exact ⟨h1.1, h1.2, h2, h3.1, h3.2⟩
  · intro r c p g line
    simp only [parseTabLine]
    split_ifs with h1 h2 h3 h4
    · exact iff_of_true rfl (h1.imp id Or.inl)
    · exact iff_of_true rfl (Or.inr (Or.inr (Or.inl h2)))
    · exact iff_of_true rfl (Or.inr (Or.inr (Or.inr (Or.inl h3))))
    · exact iff_of_true rfl (Or.inr (Or.inr (Or.inr (Or.inr h4))))
    · refine iff_of_false (by simp) ?_
      push_neg
      push_neg at h1 h4
      exact ⟨h1.1, h1.2, Nat.not_le.mp h2, h3, h4.1, h4.2⟩
  · intro r c p a1 a2 line
    simp only [parseAncestryLine]
    split_ifs with h1 h2 h3 h4
    · exact iff_of_true rfl (h1.imp id Or.inl)
    · exact iff_of_true rfl (Or.inr (Or.inr (Or.inl h2)))
    · exact iff_of_true rfl (Or.inr (Or.inr (Or.inr (Or.inl h3))))
    · exact iff_of_true rfl (Or.inr (Or.inr (Or.inr (Or.inr h4))))
    · refine iff_of_false (by simp) ?_
      push_neg
      push_neg at h1 h4
      exact ⟨h1.1, h1.2, Nat.not_lt.mp h2, h3, h4.1, h4.2⟩

/-- C3 counterexample: the 23andMe-style parser keeps a data line whose
genotype field is empty, while the claim states that every
single-genotype parser drops the empty genotype. -/
theorem c3_counterexample_empty_genotype_kept :
    parse_23andme ["rsid\tchromosome\tposition\tgenotype",
        "rs1\t1\t100\t"] =
      [{ rsid := "rs1", chromosome := "1", position := 100,
         genotype := "", reference := none, alternate := none }] ∧
    parse_myheritage ["RSID\tCHR\tPOS\tRESULT", "rs1\t1\t100\t0"] =
      [{ rsid := "rs1", chromosome := "1", position := 100,
         genotype := "0", reference := none, alternate := none }] := by
  refine ⟨by decide, by decide⟩

/-- C4: the claim as frozen fails on the code; the amended claim holds.
When the generic CSV parser cannot resolve one of the four logical
columns it returns the empty record list, but the generic Tab parser
instead falls back to the positional defaults 0,1,2,3 and parses the
data lines. -/
theorem c4_generic_column_resolution :
    (∀ lines,
      (genericRsidIdx? (splitComma (skipToHeader lines).1) = none ∨
        genericChrIdx? (splitComma (skipToHeader lines).1) = none ∨
        genericPosIdx? (splitComma (skipToHeader lines).1) = none ∨
        genericGenotypeIdx? (splitComma (skipToHeader lines).1) = none) →
      parse_csv lines = []) ∧
    (∀ lines,
      genericRsidIdx? (splitTab (skipToHeader lines).1) = none →
      genericChrIdx? (splitTab (skipToHeader lines).1) = none →
      genericPosIdx? (splitTab (skipToHeader lines).1) = none →
      genericGenotypeIdx? (splitTab (skipToHeader lines).1) = none →
      parse_tab lines = (skipToHeader lines).2.filterMap (parseTabLine 0 1 2 3)) := by
  constructor
  · intro lines h
    unfold parse_csv
    rcases h with h | h | h | h <;> simp [h]
  · intro lines h1 h2 h3 h4
    unfold parse_tab
    simp [h1, h2, h3, h4]

/-- C4 witness: a CSV input with an unresolvable header parses to the
empty list, and a Tab input with an unresolvable header falls back to
the positional default columns. -/
theorem c4_witness :
    parse_csv ["a,b,c,d", "rs1,1,100,AG"] = [] ∧
    parse_tab ["a\tb\tc\td", "rs1\t1\t100\tAG"] =
      (skipToHeader ["a\tb\tc\td", "rs1\t1\t100\tAG"]).2.filterMap
        (parseTabLine 0 1 2 3) := by
  refine ⟨c4_generic_column_resolution.1 ["a,b,c,d", "rs1,1,100,AG"]
      (Or.inl (by decide)),
    c4_generic_column_resolution.2 ["a\tb\tc\td", "rs1\t1\t100\tAG"]
      (by decide) (by decide) (by decide) (by decide)⟩

/-- C4 counterexample: on an input whose header resolves none of the
four logical columns the generic Tab parser does not return the empty
list; it guesses the positional columns and produces a record. -/
theorem c4_counterexample_tab_guesses_columns :
    parse_tab ["a\tb\tc\td", "rs1\t1\t100\tAG"] =
      [{ rsid := "rs1", chromosome := "1", position := 100,
         genotype := "AG", reference := none, alternate := none }] ∧
    parse_tab ["a\tb\tc\td", "rs1\t1\t100\tAG"] ≠ [] := by
  refine ⟨by decide, by decide⟩

/-- Not starting with the hash character excludes every longer
hash-headed pattern. -/
theorem strStartsWith_hash_mono {s : String} {pat : String}
    (hpat : ('#' :: []) <+: pat.data)
    (h : strStartsWith s "#" = false) : strStartsWith s pat = false := by
  rw [Bool.eq_false_iff]
  intro hc
  rw [strStartsWith, Bool.eq_false_iff] at h
  exact h (List.isPrefixOf_iff_prefix.mpr
    (hpat.trans (List.isPrefixOf_iff_prefix.mp hc)))

/-- A data line whose POS field does not parse leaves the parse state
unchanged in every state. -/
theorem parseVcfStep_bad_pos (st : VcfState) (bad : String)
    (hns : strStartsWith bad "#" = false)
    (hlen : 9 ≤ (splitTab bad).length)
    (hpos : rustParseU64 ((splitTab bad).getD 1 "") = none) :
    parseVcfStep st bad = st := by
  have h2 : strStartsWith bad "##" = false :=
    strStartsWith_hash_mono (by decide) hns
  have h3 : strStartsWith bad "#CHROM" = false :=
    strStartsWith_hash_mono (by decide) hns
  have herr : parse_variant_line bad = Except.error "invalid digit found in string" := by
    simp only [parse_variant_line]
    rw [if_neg (Nat.not_lt.mpr hlen), hpos]
  unfold parseVcfStep
  rw [h2, h3]
  simp only [Bool.false_eq_true, false_and, if_false, hns, true_and]
  by_cases hh : st.headerParsed = true
  · rw [if_pos hh, herr]
  · rw [if_neg hh]

/-- C1: the claim as frozen fails on the code; the amended claim holds.
A data line whose POS field fails to parse as an unsigned integer makes
parse_variant_line return a fatal error for that line, but parse_vcf
swallows the error through its if-let: the line is silently skipped and
the whole parse succeeds with exactly the state it would have had
without that line. -/
theorem c1_bad_pos_line_errors_but_parse_continues
    (l1 l2 : List String) (bad : String)
    (hns : strStartsWith bad "#" = false)
    (hlen : 9 ≤ (splitTab bad).length)
    (hpos : rustParseU64 ((splitTab bad).getD 1 "") = none) :
    (∃ msg, parse_variant_line bad = Except.error msg) ∧
    parse_vcf (l1 ++ bad :: l2) = parse_vcf (l1 ++ l2) := by
  constructor
  · refine ⟨"invalid digit found in string", ?_⟩
    simp only [parse_variant_line]
    rw [if_neg (Nat.not_lt.mpr hlen), hpos]
  · unfold parse_vcf
    rw [List.foldl_append, List.foldl_append, List.foldl_cons,
      parseVcfStep_bad_pos _ bad hns hlen hpos]

/-- C1 witness: instantiation on a concrete VCF file whose single data
line has the unparseable POS field abc. -/
theorem c1_witness :
    (strStartsWith "1\tabc\t.\tA\tG\t60\tPASS\t.\tGT\t0|0" "#" = false ∧
      9 ≤ (splitTab "1\tabc\t.\tA\tG\t60\tPASS\t.\tGT\t0|0").length ∧
      rustParseU64 ((splitTab "1\tabc\t.\tA\tG\t60\tPASS\t.\tGT\t0|0").getD 1 "")
        = none) ∧
    (∃ msg, parse_variant_line "1\tabc\t.\tA\tG\t60\tPASS\t.\tGT\t0|0"
        = Except.error msg) ∧
    parse_vcf
        (["#CHROM\tPOS\tID\tREF\tALT\tQUAL\tFILTER\tINFO\tFORMAT\tS1"]
          ++ "1\tabc\t.\tA\tG\t60\tPASS\t.\tGT\t0|0" :: []) =
      parse_vcf
        (["#CHROM\tPOS\tID\tREF\tALT\tQUAL\tFILTER\tINFO\tFORMAT\tS1"] ++ []) :=
  ⟨⟨by decide, by decide, by decide⟩,
    c1_bad_pos_line_errors_but_parse_continues
      ["#CHROM\tPOS\tID\tREF\tALT\tQUAL\tFILTER\tINFO\tFORMAT\tS1"] []
      "1\tabc\t.\tA\tG\t60\tPASS\t.\tGT\t0|0"
      (by decide) (by decide) (by decide)⟩

/-- C1 counterexample: a whole-file parse over a header plus one
malformed-POS data line completes successfully with the line dropped,
instead of aborting with a fatal error as the claim states. -/
theorem c1_counterexample_parse_succeeds :
    parse_vcf ["#CHROM\tPOS\tID\tREF\tALT\tQUAL\tFILTER\tINFO\tFORMAT\tS1",
        "1\tabc\t.\tA\tG\t60\tPASS\t.\tGT\t0|0"] =
      Except.ok { samples := ["S1"], variants := [], headerParsed := true } := by
  rfl

theorem lookup_updateAssoc (ps : List (String × Population)) (key code : String)
    (f : Population → Population) :
    (updateAssoc ps key f).lookup code =
      if code = key then (ps.lookup code).map f else ps.lookup code := by
  induction ps with
  | nil => by_cases hc : code = key <;> simp [updateAssoc, hc]
  | cons kp ps ih =>
      obtain ⟨k, v⟩ := kp
      by_cases hk : k = key <;> by_cases hc : code = k
      · subst hk
        subst hc
        simp [updateAssoc, List.lookup]
      · subst hk
        have hbeq : (code == k) = false := beq_eq_false_iff_ne.mpr hc
        simp [updateAssoc, List.lookup, hbeq, hc, ih]
      · subst hc
        have hbeq : (code == code) = true := beq_self_eq_true code
        simp [updateAssoc, List.lookup, hk, hbeq, if_neg hk]
      · have hbeq : (code == k) = false := beq_eq_false_iff_ne.mpr hc
        simp [updateAssoc, List.lookup, hk, hbeq, ih]

theorem lookup_append_of_none (ps qs : List (String × Population)) (code : String)
    (h : ps.lookup code = none) : (ps ++ qs).lookup code = qs.lookup code := by
  induction ps with
  | nil => simp
  | cons kp ps ih =>
      obtain ⟨k, v⟩ := kp
      by_cases hck : (code == k) = true
      · simp only [List.lookup, hck] at h
        exact absurd h (by simp)
      · have hbeq : (code == k) = false := by simpa using hck
        simp only [List.cons_append, List.lookup, hbeq] at h ⊢
        exact ih h

theorem lookup_append_eq (ps qs : List (String × Population)) (code : String) :
    (ps ++ qs).lookup code =
      match ps.lookup code with
      | some v => some v
      | none => qs.lookup code := by
  induction ps with
  | nil => simp
  | cons kp ps ih =>
      obtain ⟨k, v⟩ := kp
      by_cases hck : (code == k) = true
      · simp only [List.cons_append, List.lookup, hck]
      · have hbeq : (code == k) = false := by simpa using hck
        simp only [List.cons_append, List.lookup, hbeq]
        exact ih

theorem membersOf_panelStep (pops : List (String × Population)) (line code : String) :
    membersOf (panelStep pops line) code =
      membersOf pops code ++
        (if (!strStartsWith line "sample"
              && decide (4 ≤ (splitTab line).length)
              && ((splitTab line).getD 1 "" == code)) = true
         then [(splitTab line).getD 0 ""] else []) := by
  by_cases hs : strStartsWith line "sample" = true
  · simp [panelStep, hs]
  · have hs0 : strStartsWith line "sample" = false := by simpa using hs
    by_cases hlen : 4 ≤ (splitTab line).length
    · cases hlook : pops.lookup ((splitTab line).getD 1 "") with
      | none =>
          simp only [List.getD_eq_getElem?_getD] at hlook
          by_cases hcode : (splitTab line).getD 1 "" = code
          · subst hcode
            simp [panelStep, membersOf, lookup_updateAssoc, lookup_append_eq,
              hs0, hlen, hlook, List.lookup]
          · have hbeq : ((splitTab line).getD 1 "" == code) = false := by
              simpa using hcode
            have hne : ¬ code = (splitTab line).getD 1 "" :=
              fun h => hcode h.symm
            have hbeq2 : (code == (splitTab line).getD 1 "") = false :=
              beq_eq_false_iff_ne.mpr hne
            simp only [List.getD_eq_getElem?_getD] at hbeq hne hbeq2
            simp [panelStep, membersOf, lookup_updateAssoc, lookup_append_eq,
              hs0, hlen, hlook, hbeq, hne, List.lookup]
            cases hc2 : pops.lookup code with
            | none => simp [hbeq2]
            | some p => simp [hbeq2]
      | some p =>
          simp only [List.getD_eq_getElem?_getD] at hlook
          by_cases hcode : (splitTab line).getD 1 "" = code
          · subst hcode
            simp [panelStep, membersOf, lookup_updateAssoc, hs0, hlen, hlook]
          · have hbeq : ((splitTab line).getD 1 "" == code) = false := by
              simpa using hcode
            have hne : ¬ code = (splitTab line).getD 1 "" :=
              fun h => hcode h.symm
            simp only [List.getD_eq_getElem?_getD] at hbeq hne
            simp [panelStep, membersOf, lookup_updateAssoc, hs0, hlen, hlook,
              hbeq, hne]
    · simp [panelStep, hs0, hlen]

theorem membersOf_panel_foldl (lines : List String)
    (pops : List (String × Population)) (code : String) :
    membersOf (lines.foldl panelStep pops) code =
      membersOf pops code ++
        (lines.filter (fun l => !strStartsWith l "sample"
            && decide (4 ≤ (splitTab l).length)
            && ((splitTab l).getD 1 "" == code))).map
          (fun l => (splitTab l).getD 0 "") := by
  induction lines generalizing pops with
  | nil => simp
  | cons line rest ih =>
      rw [List.foldl_cons, ih (panelStep pops line), membersOf_panelStep]
      by_cases hp : (!strStartsWith line "sample"
          && decide (4 ≤ (splitTab line).length)
          && ((splitTab line).getD 1 "" == code)) = true
      · simp only [Bool.and_eq_true, Bool.not_eq_true', beq_iff_eq,
          decide_eq_true_eq, List.getD_eq_getElem?_getD] at hp
        simp [List.filter_cons, hp, List.append_assoc]
      · simp only [Bool.and_eq_true, Bool.not_eq_true', beq_iff_eq,
          decide_eq_true_eq, List.getD_eq_getElem?_getD] at hp
        simp [List.filter_cons, hp]

/-- C9: the claim as frozen fails on the code; the amended claim holds.
A panel line is skipped as header exactly when the line STARTS WITH the
text sample (not when its first tab token equals it); every non-skipped
line with at least 4 tab fields appends its first field to the member
list of the population named by its second field, in input order, so
two rows sharing one population code yield one entry holding a
two-element member list. -/
theorem c9_panel_members_characterization (lines : List String) (code : String) :
    membersOf (parse_population_panel lines) code =
      (lines.filter (fun l => !strStartsWith l "sample"
          && decide (4 ≤ (splitTab l).length)
          && ((splitTab l).getD 1 "" == code))).map
        (fun l => (splitTab l).getD 0 "") := by
  have h := membersOf_panel_foldl lines [] code
  simpa [parse_population_panel, membersOf] using h

/-- C9 counterexample: a panel line whose first tab token is samples1
(which differs from the literal sample) is nevertheless skipped by the
code because the line starts with the text sample; the claim requires it
to be processed and to add samples1 to the GBR member list. -/
theorem c9_counterexample_prefix_skip :
    parse_population_panel ["samples1\tGBR\tEUR\tmale"] = [] ∧
    (splitTab "samples1\tGBR\tEUR\tmale").getD 0 "" = "samples1" ∧
    ("samples1" : String) ≠ "sample" ∧
    4 ≤ (splitTab "samples1\tGBR\tEUR\tmale").length := by
  refine ⟨by decide, by decide, by decide, by decide⟩

theorem filterMap_sim_present (ds : VCFProcessor) (sample : String) (i : Nat)
    (hidx : ds.samples.findIdx? (fun x => x == sample) = some i)
    (ms : List String) :
    ms.filterMap (fun m => (calculate_genetic_similarity ds sample m).toOption) =
      (ms.filter (fun m => (ds.samples.findIdx? (fun x => x == m)).isSome)).map
        (fun m => simValue ds i ((ds.samples.findIdx? (fun x => x == m)).getD 0)) := by
  induction ms with
  | nil => rfl
  | cons m rest ih =>
      cases hj : ds.samples.findIdx? (fun x => x == m) with
      | none =>
          have hhead : (calculate_genetic_similarity ds sample m).toOption = none := by
            simp [calculate_genetic_similarity, hidx, hj, Except.toOption]
          rw [List.filterMap_cons, hhead, List.filter_cons]
          simp only [hj, Option.isSome_none, Bool.false_eq_true, if_false]
          exact ih
      | some j =>
          have hhead : (calculate_genetic_similarity ds sample m).toOption =
              some (simValue ds i j) := by
            simp only [calculate_genetic_similarity, hidx, hj, simValue]
            by_cases hpos : 0 < (similarityCounts ds.variants i j).2
            · simp [hpos, Except.toOption]
            · simp [hpos, Except.toOption]
          rw [List.filterMap_cons, hhead, List.filter_cons]
          simp only [hj, Option.isSome_some, if_true, List.map_cons,
            Option.getD_some]
          exact congrArg (fun t => simValue ds i j :: t) ih

/-- C5: the claim as frozen fails on the code; the amended claim holds.
During estimateAncestry, a population member absent from the Sample
sequence is skipped entirely: the failed similarity lookup is swallowed
by the if-let, so the pair enters neither the numerator nor the
denominator of the superpopulation average; only the present members
contribute, each with its similarity value, and no error is raised. -/
theorem c5_absent_member_skipped (ds : VCFProcessor) (sample superPop : String)
    (i : Nat) (hidx : ds.samples.findIdx? (fun x => x == sample) = some i) :
    ancestrySims ds sample superPop =
      (ds.populations.filter (fun kp => kp.2.ancestry == superPop)).flatMap
        (fun kp => ((kp.2.samples.take 10).filter
            (fun m => (ds.samples.findIdx? (fun x => x == m)).isSome)).map
          (fun m => simValue ds i ((ds.samples.findIdx? (fun x => x == m)).getD 0))) := by
  unfold ancestrySims
  congr 1
  funext kp
  exact filterMap_sim_present ds sample i hidx _

/-- C5 witness: instantiation of the skipped-member equation on the
concrete dataset whose EUR population lists one absent member. -/
theorem c5_witness :
    demoAncestryDs.samples.findIdx? (fun x => x == "S") = some 0 ∧
    ancestrySims demoAncestryDs "S" "EUR" =
      (demoAncestryDs.populations.filter
          (fun kp => kp.2.ancestry == "EUR")).flatMap
        (fun kp => ((kp.2.samples.take 10).filter
            (fun m => (demoAncestryDs.samples.findIdx? (fun x => x == m)).isSome)).map
          (fun m => simValue demoAncestryDs 0
            ((demoAncestryDs.samples.findIdx? (fun x => x == m)).getD 0))) :=
  ⟨by decide, c5_absent_member_skipped demoAncestryDs "S" "EUR" 0 (by decide)⟩

/-- C5 counterexample: on the concrete dataset, the absent member B is
skipped entirely, so the EUR score is the single similarity 1; under the
claim as written B would enter both numerator and denominator with the
value 0 and the score would be one half. -/
theorem c5_counterexample_absent_member_not_zeroed :
    estimate_ancestry_score demoAncestryDs "S" "EUR" = some 1 ∧
    ancestryScoreClaimed demoAncestryDs "S" "EUR" = some (1 / 2) ∧
    some (1 : ℚ) ≠ some (1 / 2 : ℚ) := by
  have hsims : ancestrySims demoAncestryDs "S" "EUR"
      = [((1 : ℕ) : ℚ) / ((1 : ℕ) : ℚ)] := rfl
  have hclaimed : ancestrySimsClaimed demoAncestryDs "S" "EUR"
      = [((1 : ℕ) : ℚ) / ((1 : ℕ) : ℚ), 0] := rfl
  refine ⟨?_, ?_, by norm_num⟩
  · simp [estimate_ancestry_score, hsims]
  · simp [ancestryScoreClaimed, hclaimed]

theorem similarityCounts_diag (vs : List SNPVariant) (i : Nat) :
    similarityCounts vs i i =
      (vs.countP (fun v => decide (i < v.samples.length)),
       vs.countP (fun v => decide (i < v.samples.length))) := by
  suffices h : ∀ acc : Nat × Nat,
      vs.foldl (fun mt v =>
        if i < v.samples.length ∧ i < v.samples.length then
          ((if v.samples.getD i "" = v.samples.getD i "" then mt.1 + 1 else mt.1),
            mt.2 + 1)
        else mt) acc =
      (acc.1 + vs.countP (fun v => decide (i < v.samples.length)),
       acc.2 + vs.countP (fun v => decide (i < v.samples.length))) by
    simpa [similarityCounts] using h (0, 0)
  induction vs with
  | nil => intro acc; simp
  | cons v vs ih =>
      intro acc
      rw [List.foldl_cons]
      by_cases h : i < v.samples.length
      · have hstep : (if i < v.samples.length ∧ i < v.samples.length then
            ((if v.samples.getD i "" = v.samples.getD i ""
              then acc.1 + 1 else acc.1), acc.2 + 1)
          else acc) = (acc.1 + 1, acc.2 + 1) := by simp [h]
        rw [hstep, ih (acc.1 + 1, acc.2 + 1), List.countP_cons]
        simp only [decide_eq_true h, if_true, Prod.mk.injEq]
        exact ⟨by omega, by omega⟩
      · have hstep : (if i < v.samples.length ∧ i < v.samples.length then
            ((if v.samples.getD i "" = v.samples.getD i ""
              then acc.1 + 1 else acc.1), acc.2 + 1)
          else acc) = acc := by
          rw [if_neg (fun hc => h hc.1)]
        rw [hstep, ih acc, List.countP_cons]
        simp only [decide_eq_false h, Bool.false_eq_true, if_false,
          Prod.mk.injEq]
        exact ⟨by omega, by omega⟩

/-- C7: the claim as frozen fails on the code; the amended claim holds.
For a sample present in the Sample sequence, similarity(sample, sample)
is exactly 1 whenever at least one Variant's genotype list covers the
sample's index; a dataset may contain Variants yet cover no index, and
then the similarity is the 0 fallback instead. -/
theorem c7_self_similarity_when_covered (ds : VCFProcessor) (s : String)
    (i : Nat)
    (hidx : ds.samples.findIdx? (fun x => x == s) = some i)
    (hcov : ∃ v ∈ ds.variants, i < v.samples.length) :
    calculate_genetic_similarity ds s s = Except.ok 1 := by
  have hc := similarityCounts_diag ds.variants i
  have hpos : 0 < ds.variants.countP (fun v => decide (i < v.samples.length)) := by
    rw [List.countP_pos_iff]
    obtain ⟨v, hv, hlen⟩ := hcov
    exact ⟨v, hv, by simpa using hlen⟩
  simp only [calculate_genetic_similarity, hidx, hc]
  rw [if_pos hpos]
  have hne : ((ds.variants.countP (fun v => decide (i < v.samples.length)) : ℕ) : ℚ) ≠ 0 := by
    exact_mod_cast Nat.pos_iff_ne_zero.mp hpos
  rw [div_self hne]

/-- C7 witness: the self-similarity theorem instantiated on the
dataset whose single variant covers the sample index. -/
theorem c7_witness :
    (demoCoveredDs.samples.findIdx? (fun x => x == "A") = some 0 ∧
      ∃ v ∈ demoCoveredDs.variants, 0 < v.samples.length) ∧
    calculate_genetic_similarity demoCoveredDs "A" "A" = Except.ok 1 :=
  ⟨⟨by decide, by decide⟩,
    c7_self_similarity_when_covered demoCoveredDs "A" 0 (by decide) (by decide)⟩

/-- C7 counterexample: the dataset holds a Variant and the sample is
present, yet the self-similarity is the 0 fallback, not 1, because the
variant's genotype list does not cover the sample index. -/
theorem c7_counterexample_uncovered :
    calculate_genetic_similarity demoUncoveredDs "A" "A" = Except.ok 0 ∧
    demoUncoveredDs.variants.length = 1 ∧
    "A" ∈ demoUncoveredDs.samples ∧
    (Except.ok (0 : ℚ) : Except String ℚ) ≠ Except.ok 1 := by
  refine ⟨rfl, rfl, by decide, by simp⟩

theorem insEl_perm (le : α → α → Bool) (x : α) (l : List α) :
    (insEl le x l).Perm (x :: l) := by
  induction l with
  | nil => exact List.Perm.refl _
  | cons y ys ih =>
      by_cases h : le y x = true
      · rw [insEl, if_pos h]
        exact (ih.cons y).trans (List.Perm.swap x y ys)
      · rw [insEl, if_neg h]

theorem sortBy_foldl_perm (le : α → α → Bool) (l : List α) :
    ∀ acc : List α,
      (l.foldl (fun acc x => insEl le x acc) acc).Perm (acc ++ l) := by
  induction l with
  | nil => intro acc; simp
  | cons x xs ih =>
      intro acc
      rw [List.foldl_cons]
      refine (ih (insEl le x acc)).trans ?_
      refine (((insEl_perm le x acc).append_right xs).trans ?_)
      exact List.perm_middle.symm

theorem sortBy_perm (le : α → α → Bool) (l : List α) : (sortBy le l).Perm l := by
  simpa using sortBy_foldl_perm le l []

theorem keysOf_foldl_facts (snps : List SnpData) :
    ∀ ks : List String, ks.Nodup →
      ((snps.foldl
          (fun ks s => if s.chromosome ∈ ks then ks
            else ks ++ [s.chromosome]) ks).Nodup ∧
        (∀ x ∈ ks, x ∈ snps.foldl
          (fun ks s => if s.chromosome ∈ ks then ks
            else ks ++ [s.chromosome]) ks) ∧
        (∀ s ∈ snps, s.chromosome ∈ snps.foldl
          (fun ks s => if s.chromosome ∈ ks then ks
            else ks ++ [s.chromosome]) ks)) := by
  induction snps with
  | nil =>
      intro ks h
      exact ⟨h, fun x hx => hx, by simp⟩
  | cons s rest ih =>
      intro ks h
      rw [List.foldl_cons]
      by_cases hc : s.chromosome ∈ ks
      · rw [if_pos hc]
        obtain ⟨h1, h2, h3⟩ := ih ks h
        refine ⟨h1, h2, ?_⟩
        intro t ht
        rcases List.mem_cons.mp ht with hts | htr
        · rw [hts]
          exact h2 _ hc
        · exact h3 t htr
      · rw [if_neg hc]
        have hnd : (ks ++ [s.chromosome]).Nodup := by
          simp [List.nodup_append, h, hc]
        obtain ⟨h1, h2, h3⟩ := ih (ks ++ [s.chromosome]) hnd
        refine ⟨h1, ?_, ?_⟩
        · intro x hx
          exact h2 x (List.mem_append_left _ hx)
        · intro t ht
          rcases List.mem_cons.mp ht with hts | htr
          · rw [hts]
            exact h2 _ (List.mem_append_right _ (by simp))
          · exact h3 t htr

theorem keysOf_nodup (snps : List SnpData) : (keysOf snps).Nodup :=
  ((keysOf_foldl_facts snps) [] List.nodup_nil).1

theorem keysOf_covers (snps : List SnpData) :
    ∀ s ∈ snps, s.chromosome ∈ keysOf snps :=
  ((keysOf_foldl_facts snps) [] List.nodup_nil).2.2

theorem flatMap_filter_drop_key (ks : List String) (l : List SnpData)
    (k : String) (hk : k ∉ ks) :
    ks.flatMap (fun k2 => (l.filter (fun s => !(s.chromosome == k))).filter
        (fun s => s.chromosome == k2)) =
      ks.flatMap (fun k2 => l.filter (fun s => s.chromosome == k2)) := by
  induction ks with
  | nil => rfl
  | cons k2 ks ih =>
      simp only [List.flatMap_cons]
      rw [ih (fun h => hk (List.mem_cons_of_mem _ h))]
      congr 1
      rw [List.filter_filter]
      apply List.filter_congr
      intro a ha
      by_cases h2 : a.chromosome = k2
      · have hkk2 : k ≠ k2 := fun hh => hk (by rw [hh]; exact List.mem_cons_self _ _)
        have hne : (a.chromosome == k) = false :=
          beq_eq_false_iff_ne.mpr (fun hak => hkk2 (hak.symm.trans h2))
        simp [h2, hne]
        exact fun hh => hkk2 hh.symm
      · simp [h2]

theorem flatMap_filter_partition (keys : List String) (l : List SnpData)
    (hnd : keys.Nodup) (hcov : ∀ x ∈ l, x.chromosome ∈ keys) :
    (keys.flatMap (fun k => l.filter (fun s => s.chromosome == k))).Perm l := by
  induction keys generalizing l with
  | nil =>
      cases l with
      | nil => exact List.Perm.refl _
      | cons a l => exact absurd (hcov a (by simp)) (by simp)
  | cons k ks ih =>
      rw [List.flatMap_cons]
      have hknotin : k ∉ ks := (List.nodup_cons.mp hnd).1
      have hndks : ks.Nodup := (List.nodup_cons.mp hnd).2
      rw [← flatMap_filter_drop_key ks l k hknotin]
      have hcov2 : ∀ x ∈ l.filter (fun s => !(s.chromosome == k)),
          x.chromosome ∈ ks := by
        intro x hx
        obtain ⟨hxl, hxne⟩ := List.mem_filter.mp hx
        have := hcov x hxl
        rcases List.mem_cons.mp this with hh | hh
        · exact absurd (beq_iff_eq.mpr hh) (by simpa using hxne)
        · exact hh
      have hrest := ih (l.filter (fun s => !(s.chromosome == k))) hndks hcov2
      refine ((List.Perm.append_left _ hrest).trans ?_)
      exact List.filter_append_perm _ l

/-- C2: the claim as frozen fails on the code; the amended claim holds.
The data records emitted by write_vcf_file are exactly the input records
rearranged: the emission is a permutation of the input, so records
sharing one chromosome-position pair are all emitted and no
deduplication by position happens. -/
theorem c2_emission_permutation (snps : List SnpData) :
    (writeVcfEmission snps).Perm snps := by
  unfold writeVcfEmission
  have hblocks : ∀ ks : List String,
      (ks.flatMap (fun k => sortBy posLe
          (snps.filter (fun s => s.chromosome == k)))).Perm
        (ks.flatMap (fun k => snps.filter (fun s => s.chromosome == k))) := by
    intro ks
    induction ks with
    | nil => exact List.Perm.refl _
    | cons k ks ih =>
        simp only [List.flatMap_cons]
        exact (sortBy_perm posLe _).append ih
  refine (hblocks _).trans ?_
  apply flatMap_filter_partition
  · exact ((sortBy_perm chromKeyLe (keysOf snps)).nodup_iff).mpr (keysOf_nodup snps)
  · intro x hx
    exact ((sortBy_perm chromKeyLe (keysOf snps)).mem_iff).mpr
      (keysOf_covers snps x hx)

/-- C2 counterexample: two records sharing chromosome 1 and position
100 are both emitted, against the claimed deduplication by position. -/
theorem c2_counterexample_duplicate_positions_kept :
    writeVcfEmission
        [SnpData.mk "rs1" "1" 100 "AG" none none,
          SnpData.mk "rs2" "1" 100 "AG" none none] =
      [SnpData.mk "rs1" "1" 100 "AG" none none,
        SnpData.mk "rs2" "1" 100 "AG" none none] ∧
    (SnpData.mk "rs1" "1" 100 "AG" none none).position =
      (SnpData.mk "rs2" "1" 100 "AG" none none).position := by
  refine ⟨by decide, rfl⟩

theorem insEl_pairwise (le : α → α → Bool) (P : α → Prop)
    (htot : ∀ a b, P a → P b → le a b = true ∨ le b a = true)
    (htrans : ∀ a b c, P a → P b → P c →
      le a b = true → le b c = true → le a c = true)
    (x : α) (hx : P x) (l : List α) (hl : ∀ y ∈ l, P y)
    (hs : l.Pairwise (fun a b => le a b = true)) :
    (insEl le x l).Pairwise (fun a b => le a b = true) := by
  induction l with
  | nil => simp [insEl]
  | cons y ys ih =>
      have hy : P y := hl y (by simp)
      have hys : ∀ z ∈ ys, P z := fun z hz => hl z (by simp [hz])
      obtain ⟨hhead, htail⟩ := List.pairwise_cons.mp hs
      by_cases h : le y x = true
      · rw [insEl, if_pos h]
        refine List.pairwise_cons.mpr ⟨?_, ih hys htail⟩
        intro z hz
        rcases List.mem_cons.mp ((insEl_perm le x ys).mem_iff.mp hz) with rfl | hzys
        · exact h
        · exact hhead z hzys
      · rw [insEl, if_neg h]
        have hxy : le x y = true := by
          rcases htot x y hx hy with ht | ht
          · exact ht
          · exact absurd ht h
        refine List.pairwise_cons.mpr ⟨?_, hs⟩
        intro z hz
        rcases List.mem_cons.mp hz with rfl | hzys
        · exact hxy
        · exact htrans x y z hx hy (hys z hzys) hxy (hhead z hzys)

theorem sortBy_foldl_pairwise (le : α → α → Bool) (P : α → Prop)
    (htot : ∀ a b, P a → P b → le a b = true ∨ le b a = true)
    (htrans : ∀ a b c, P a → P b → P c →
      le a b = true → le b c = true → le a c = true)
    (l : List α) :
    ∀ acc : List α, (∀ y ∈ l, P y) → (∀ y ∈ acc, P y) →
      acc.Pairwise (fun a b => le a b = true) →
      (l.foldl (fun acc x => insEl le x acc) acc).Pairwise
        (fun a b => le a b = true) := by
  induction l with
  | nil => intro acc _ _ h2; exact h2
  | cons x xs ih =>
      intro acc hl h1 h2
      rw [List.foldl_cons]
      have hx : P x := hl x (by simp)
      have hxs : ∀ y ∈ xs, P y := fun y hy => hl y (by simp [hy])
      have hacc2 : ∀ y ∈ insEl le x acc, P y := by
        intro y hy
        rcases List.mem_cons.mp ((insEl_perm le x acc).mem_iff.mp hy) with rfl | hm
        · exact hx
        · exact h1 y hm
      exact ih (insEl le x acc) hxs hacc2
        (insEl_pairwise le P htot htrans x hx acc h1 h2)

theorem sortBy_pairwise (le : α → α → Bool) (P : α → Prop)
    (htot : ∀ a b, P a → P b → le a b = true ∨ le b a = true)
    (htrans : ∀ a b c, P a → P b → P c →
      le a b = true → le b c = true → le a c = true)
    (l : List α) (hl : ∀ y ∈ l, P y) :
    (sortBy le l).Pairwise (fun a b => le a b = true) :=
  sortBy_foldl_pairwise le P htot htrans l [] hl (by simp) (by simp)

theorem pairwise_strengthen {R S : α → α → Prop} {p : α → Prop} (l : List α)
    (hp : ∀ x ∈ l, p x) (h : l.Pairwise R)
    (himp : ∀ a b, p a → p b → R a b → S a b) : l.Pairwise S := by
  induction l with
  | nil => simp
  | cons x xs ih =>
      obtain ⟨h1, h2⟩ := List.pairwise_cons.mp h
      refine List.pairwise_cons.mpr
        ⟨?_, ih (fun y hy => hp y (by simp [hy])) h2⟩
      intro y hy
      exact himp x y (hp x (by simp)) (hp y (by simp [hy])) (h1 y hy)

theorem posLe_total (a b : SnpData) : posLe a b = true ∨ posLe b a = true := by
  simp only [posLe, decide_eq_true_eq]
  omega

theorem posLe_trans (a b c : SnpData) (h1 : posLe a b = true)
    (h2 : posLe b c = true) : posLe a c = true := by
  simp only [posLe, decide_eq_true_eq] at h1 h2 ⊢
  omega

theorem chromKeyLe_total_canonical :
    ∀ a ∈ canonicalChromosomes, ∀ b ∈ canonicalChromosomes,
      chromKeyLe a b = true ∨ chromKeyLe b a = true := by decide

theorem chromKeyLe_trans_canonical :
    ∀ a ∈ canonicalChromosomes, ∀ b ∈ canonicalChromosomes,
      ∀ c ∈ canonicalChromosomes,
      chromKeyLe a b = true → chromKeyLe b c = true →
      chromKeyLe a c = true := by decide

theorem chromKeyLe_to_claimLt :
    ∀ a ∈ canonicalChromosomes, ∀ b ∈ canonicalChromosomes,
      a ≠ b → chromKeyLe a b = true → claimChromLt a b = true := by decide

theorem keysOf_foldl_chroms (snps : List SnpData) :
    ∀ ks : List String, ∀ y ∈ snps.foldl
        (fun ks s => if s.chromosome ∈ ks then ks
          else ks ++ [s.chromosome]) ks,
      y ∈ ks ∨ ∃ s ∈ snps, s.chromosome = y := by
  induction snps with
  | nil => intro ks y hy; exact Or.inl hy
  | cons s rest ih =>
      intro ks y hy
      rw [List.foldl_cons] at hy
      by_cases hc : s.chromosome ∈ ks
      · rw [if_pos hc] at hy
        rcases ih ks y hy with h | ⟨t, ht, he⟩
        · exact Or.inl h
        · exact Or.inr ⟨t, by simp [ht], he⟩
      · rw [if_neg hc] at hy
        rcases ih (ks ++ [s.chromosome]) y hy with h | ⟨t, ht, he⟩
        · rcases List.mem_append.mp h with h | h
          · exact Or.inl h
          · exact Or.inr ⟨s, by simp, (List.mem_singleton.mp h).symm⟩
        · exact Or.inr ⟨t, by simp [ht], he⟩

theorem keysOf_chroms (snps : List SnpData) :
    ∀ y ∈ keysOf snps, ∃ s ∈ snps, s.chromosome = y := by
  intro y hy
  rcases keysOf_foldl_chroms snps [] y hy with h | h
  · exact absurd h (by simp)
  · exact h

theorem mem_block_chrom (snps : List SnpData) (k : String) (z : SnpData)
    (hz : z ∈ sortBy posLe (snps.filter (fun s => s.chromosome == k))) :
    z.chromosome = k := by
  have hm := (sortBy_perm posLe _).mem_iff.mp hz
  exact beq_iff_eq.mp (List.mem_filter.mp hm).2

theorem block_pairwise_emitLe (snps : List SnpData) (k : String) :
    (sortBy posLe (snps.filter (fun s => s.chromosome == k))).Pairwise emitLe := by
  have hpw : (sortBy posLe (snps.filter (fun s => s.chromosome == k))).Pairwise
      (fun a b => posLe a b = true) :=
    sortBy_pairwise posLe (fun _ => True)
      (fun a b _ _ => posLe_total a b)
      (fun a b c _ _ _ => posLe_trans a b c) _ (fun _ _ => trivial)
  refine pairwise_strengthen _ (fun z hz => mem_block_chrom snps k z hz) hpw ?_
  intro a b ha hb hle
  exact Or.inr ⟨ha.trans hb.symm, by simpa [posLe] using hle⟩

/-- C8: for records over canonical chromosome tokens, the write_vcf_file
emission is grouped by chromosome with purely numeric keys ascending
numerically, the non-numeric keys X, Y, MT after every numeric key in
lexical order among themselves, and positions non-decreasing within each
chromosome block: every pair of emitted records in order satisfies the
claimed emission order, in particular a chromosome-1 block precedes a
chromosome-2 block. -/
theorem c8_emission_ordering (snps : List SnpData)
    (hcanon : ∀ r ∈ snps, r.chromosome ∈ canonicalChromosomes) :
    (writeVcfEmission snps).Pairwise emitLe := by
  unfold writeVcfEmission
  have hskP : ∀ y ∈ sortBy chromKeyLe (keysOf snps),
      y ∈ canonicalChromosomes := by
    intro y hy
    obtain ⟨s, hs, he⟩ := keysOf_chroms snps y
      ((sortBy_perm chromKeyLe (keysOf snps)).mem_iff.mp hy)
    exact he ▸ hcanon s hs
  have hsorted : (sortBy chromKeyLe (keysOf snps)).Pairwise
      (fun a b => chromKeyLe a b = true) := by
    apply sortBy_pairwise chromKeyLe (fun y => y ∈ canonicalChromosomes)
    · intro a b ha hb
      exact chromKeyLe_total_canonical a ha b hb
    · intro a b c ha hb hc
      exact chromKeyLe_trans_canonical a ha b hb c hc
    · intro y hy
      obtain ⟨s, hs, he⟩ := keysOf_chroms snps y hy
      exact he ▸ hcanon s hs
  have hnd : (sortBy chromKeyLe (keysOf snps)).Nodup :=
    ((sortBy_perm chromKeyLe (keysOf snps)).nodup_iff).mpr (keysOf_nodup snps)
  revert hsorted hnd hskP
  generalize sortBy chromKeyLe (keysOf snps) = ks
  induction ks with
  | nil => intro _ _ _; simp
  | cons k ks ih =>
      intro hP hsorted hnd
      rw [List.flatMap_cons, List.pairwise_append]
      obtain ⟨hhead, htail⟩ := List.pairwise_cons.mp hsorted
      refine ⟨block_pairwise_emitLe snps k,
        ih (fun y hy => hP y (by simp [hy])) htail (List.nodup_cons.mp hnd).2,
        ?_⟩
      intro a ha b hb
      have hak : a.chromosome = k := mem_block_chrom snps k a ha
      obtain ⟨k2, hk2, hbk2⟩ := List.mem_flatMap.mp hb
      have hbk : b.chromosome = k2 := mem_block_chrom snps k2 b hbk2
      have hkk2 : chromKeyLe k k2 = true := hhead k2 hk2
      have hne : k ≠ k2 := fun h => (List.nodup_cons.mp hnd).1 (h ▸ hk2)
      have hclt : claimChromLt k k2 = true :=
        chromKeyLe_to_claimLt k (hP k (by simp)) k2 (hP k2 (by simp [hk2]))
          hne hkk2
      exact Or.inl (by rw [hak, hbk]; exact hclt)

/-- C8 witness: the ordering theorem instantiated on the concrete
records, whose emission puts the chromosome-1 block first with
positions ascending. -/
theorem c8_witness :
    (∀ r ∈ demoWriterSnps, r.chromosome ∈ canonicalChromosomes) ∧
    (writeVcfEmission demoWriterSnps).Pairwise emitLe ∧
    writeVcfEmission demoWriterSnps =
      [SnpData.mk "rs3" "1" 50 "AG" none none,
        SnpData.mk "rs2" "1" 100 "AG" none none,
        SnpData.mk "rs1" "2" 200 "AG" none none] :=
  ⟨by decide, c8_emission_ordering demoWriterSnps (by decide), by decide⟩
